import Mathlib

/-!
Shallow embedding of `src/earthquakes.py` (earthquake statistics script).

Numeric conventions: Python floats (magnitudes, coordinates) are embedded as
rationals `ℚ`; the millisecond epoch timestamp is an integer `ℤ`.  A GeoJSON
feature is embedded as a `Record` with the three fields the accessors read:
`properties.mag`, `properties.time`, `geometry.coordinates`.  Fallible
accessors (Python raising on a too-short coordinate list) return `Option`.
`datetime.fromtimestamp` converts in the system local timezone; that timezone
is modelled as a fixed offset `tz` (seconds east of UTC) threaded through
`get_year` and the aggregators that call it.
-/

namespace Earthquakes

structure Record where
  mag : ℚ
  time : ℤ
  coordinates : List ℚ
deriving DecidableEq

/-- Embeds `count_earthquakes`: `len(data['features'])`. -/
def count_earthquakes (l : List Record) : ℕ := l.length

/-- Embeds `get_magnitude`: `earthquake['properties']['mag']`. -/
def get_magnitude (r : Record) : ℚ := r.mag

/-- Embeds `get_location`: reads `coordinates[0]` (longitude) and
`coordinates[1]` (latitude), returning `(latitude, longitude)`; Python raises
(IndexError) when fewer than two coordinates are present, embedded as `none`. -/
def get_location (r : Record) : Option (ℚ × ℚ) :=
  match r.coordinates with
  | c0 :: c1 :: _ => some (c1, c0)
  | _ => none

/-- Year of a day count since the epoch (1970-01-01), proleptic Gregorian
calendar (Hinnant's civil-from-days algorithm, keeping only the year). -/
def civilYear (z : ℤ) : ℤ :=
  let zs := z + 719468
  let era := zs.ediv 146097
  let doe := zs - era * 146097
  let yoe := (doe - doe.ediv 1460 + doe.ediv 36524 - doe.ediv 146096).ediv 365
  let y := yoe + era * 400
  let doy := doe - (365 * yoe + yoe.ediv 4 - yoe.ediv 100)
  let mp := (5 * doy + 2).ediv 153
  if 10 ≤ mp then y + 1 else y

/-- Year of an epoch-second count (floor to days, then `civilYear`). -/
def yearOfEpochSecond (s : ℤ) : ℤ := civilYear (s.ediv 86400)

/-- Embeds `get_year`: `datetime.fromtimestamp(timestamp / 1000).year`.
`fromtimestamp` without a `tz` argument converts in the system local
timezone, modelled as the fixed offset `tz` in seconds east of UTC. -/
def get_year (tz : ℤ) (r : Record) : ℤ :=
  yearOfEpochSecond (r.time.ediv 1000 + tz)

/-- The spec's reading of `year_of`: the same conversion but in UTC
(offset zero), stated for comparison with `get_year`. -/
def get_year_utc (r : Record) : ℤ :=
  yearOfEpochSecond (r.time.ediv 1000)

/-- Embeds Python `max(earthquakes, key=get_magnitude)`: left fold keeping
the current maximum, replacing it only on a strictly greater key, so the
first record attaining the maximum is kept. -/
def maxByMag (best : Record) : List Record → Record
  | [] => best
  | r :: rs => maxByMag (if best.mag < r.mag then r else best) rs

/-- Embeds `get_maximum`: sentinel `(0, (0, 0))` on the empty collection,
otherwise the magnitude and location of `max(earthquakes, key=get_magnitude)`;
a failing `get_location` on that record propagates (`none`). -/
def get_maximum : List Record → Option (ℚ × (ℚ × ℚ))
  | [] => some (0, (0, 0))
  | a :: rest =>
      let maxEq := maxByMag a rest
      (get_location maxEq).map (fun loc => (get_magnitude maxEq, loc))

/-- The list of derived years, in record order: `[get_year(eq) for eq in ...]`. -/
def yearsOf (tz : ℤ) (l : List Record) : List ℤ := l.map (get_year tz)

/-- The distinct years present in the collection, sorted ascending: this is
the index both of `value_counts().sort_index()` and of `groupby('year')`. -/
def sortedYears (tz : ℤ) (l : List Record) : List ℤ :=
  (yearsOf tz l).toFinset.sort (· ≤ ·)

/-- Embeds `earthquakes_per_year`:
`pd.Series(years).value_counts().sort_index()`, i.e. the sorted distinct
years each paired with the number of records of that year. -/
def earthquakes_per_year (tz : ℤ) (l : List Record) : List (ℤ × ℕ) :=
  (sortedYears tz l).map
    (fun y => (y, (l.filter (fun r => decide (get_year tz r = y))).length))

/-- Embeds `average_magnitude_per_year`:
`df.groupby('year')['magnitude'].mean()`, i.e. the sorted distinct years
each paired with the arithmetic mean of the magnitudes of that year. -/
def average_magnitude_per_year (tz : ℤ) (l : List Record) : List (ℤ × ℚ) :=
  (sortedYears tz l).map
    (fun y =>
      let mags := (l.filter (fun r => decide (get_year tz r = y))).map get_magnitude
      (y, mags.sum / (mags.length : ℚ)))

/-- A record whose timestamp (2020-12-31T23:30:00Z in milliseconds) sits
within one hour of a year boundary. -/
def recBoundary : Record := ⟨5, 1609457400000, [0, 0]⟩

/-- A two-record collection (magnitudes 1 and 3, both in year 1970). -/
def twoRecords : List Record := [⟨1, 0, [0, 0]⟩, ⟨3, 0, [0, 0]⟩]

/-- C4: `get_maximum` applied to the empty record collection returns the
sentinel `(0, (0, 0))` and does not fail (the result is `some`). -/
theorem get_maximum_empty_sentinel : get_maximum [] = some (0, (0, 0)) := rfl

/-- C8: on a record whose coordinate list is `[10, 20, 5]` (longitude,
latitude, altitude), `get_location` returns `(20, 10)`, i.e. (latitude,
longitude), discarding the third component. -/
theorem get_location_lonlat_example (m : ℚ) (t : ℤ) :
    get_location ⟨m, t, [10, 20, 5]⟩ = some (20, 10) := rfl

/-- C3: `get_location` fails (returns `none`, the embedding of the
malformed-record failure) exactly on records with fewer than two
coordinates; with at least two it returns `(latitude, longitude)` =
`(coordinates[1], coordinates[0])`. -/
theorem get_location_malformed (r : Record) :
    (r.coordinates.length < 2 → get_location r = none) ∧
    (2 ≤ r.coordinates.length →
      get_location r = some (r.coordinates.getD 1 0, r.coordinates.getD 0 0)) := by
  obtain ⟨m, t, cs⟩ := r
  match cs with
  | [] => exact ⟨fun _ => rfl, fun h => by simp at h⟩
  | [c0] => exact ⟨fun _ => rfl, fun h => by simp at h⟩
  | c0 :: c1 :: rest =>
      refine ⟨fun h => ?_, fun _ => rfl⟩
      simp at h
      omega

theorem get_location_malformed_witness :
    ((⟨5, 0, [10]⟩ : Record).coordinates.length < 2 ∧
      get_location ⟨5, 0, [10]⟩ = none) ∧
    (2 ≤ (⟨5, 0, [10, 20, 5]⟩ : Record).coordinates.length ∧
      get_location ⟨5, 0, [10, 20, 5]⟩ = some (20, 10)) :=
  ⟨⟨by decide, (get_location_malformed ⟨5, 0, [10]⟩).1 (by decide)⟩,
   ⟨by decide, (get_location_malformed ⟨5, 0, [10, 20, 5]⟩).2 (by decide)⟩⟩

/-- C10: on any record with at least two coordinates — lengths greater than
three included — `get_location` succeeds and returns the pair (second
component, first component), ignoring everything beyond the second. -/
theorem get_location_ignores_extra (r : Record) (h : 2 ≤ r.coordinates.length) :
    get_location r = some (r.coordinates.getD 1 0, r.coordinates.getD 0 0) := by
  obtain ⟨m, t, cs⟩ := r
  match cs with
  | [] => simp at h
  | [c0] => simp at h
  | c0 :: c1 :: rest => rfl

theorem get_location_ignores_extra_witness :
    2 ≤ (⟨5, 0, [10, 20, 5, 7]⟩ : Record).coordinates.length ∧
    get_location ⟨5, 0, [10, 20, 5, 7]⟩ = some (20, 10) :=
  ⟨by decide, get_location_ignores_extra ⟨5, 0, [10, 20, 5, 7]⟩ (by decide)⟩

/-- C2 counterexample: the code's conversion is not UTC-based.  On the
record with timestamp 2020-12-31T23:30:00Z (in milliseconds) and a system
local offset of +3600 s, `get_year` yields 2021 while the UTC year is
2020. -/
theorem get_year_not_utc :
    get_year 3600 recBoundary ≠ get_year_utc recBoundary ∧
    get_year 3600 recBoundary = 2021 ∧ get_year_utc recBoundary = 2020 := by
  refine ⟨?_, by decide, by decide⟩
  decide

/-- C2 (amended): `get_year` divides the millisecond timestamp by 1000 and
converts as seconds since epoch in the system local timezone (modelled as a
fixed offset); this equals the UTC conversion of the timestamp shifted by
the offset, and coincides with UTC exactly when the offset is zero. -/
theorem get_year_local_shift (tz : ℤ) (r : Record) :
    get_year tz r = get_year_utc ⟨r.mag, r.time + 1000 * tz, r.coordinates⟩ ∧
    get_year 0 r = get_year_utc r := by
  constructor
  · unfold get_year get_year_utc
    have hshift : (r.time + 1000 * tz).ediv 1000 = r.time.ediv 1000 + tz := by
      rw [mul_comm]
      exact Int.add_mul_ediv_right r.time tz (by norm_num)
    rw [hshift]
  · unfold get_year get_year_utc
    rw [add_zero]

lemma maxByMag_mag_le (best : Record) (l : List Record) :
    best.mag ≤ (maxByMag best l).mag := by
  induction l generalizing best with
  | nil => exact le_refl _
  | cons r rs ih =>
      simp only [maxByMag]
      refine le_trans ?_ (ih _)
      by_cases hbr : best.mag < r.mag
      · rw [if_pos hbr]; exact le_of_lt hbr
      · rw [if_neg hbr]

lemma maxByMag_le_all (best : Record) (l : List Record) :
    ∀ x ∈ l, x.mag ≤ (maxByMag best l).mag := by
  induction l generalizing best with
  | nil => intro x hx; simp at hx
  | cons r rs ih =>
      intro x hx
      rcases List.mem_cons.mp hx with h | h
      · subst h
        simp only [maxByMag]
        refine le_trans ?_ (maxByMag_mag_le _ rs)
        by_cases hbr : best.mag < x.mag
        · rw [if_pos hbr]
        · rw [if_neg hbr]; exact le_of_not_lt hbr
      · exact ih _ x h

lemma maxByMag_mem (best : Record) (l : List Record) :
    maxByMag best l = best ∨ maxByMag best l ∈ l := by
  induction l generalizing best with
  | nil => exact Or.inl rfl
  | cons r rs ih =>
      simp only [maxByMag]
      by_cases hbr : best.mag < r.mag
      · rw [if_pos hbr]
        rcases ih r with h | h
        · refine Or.inr ?_
          rw [h]
          exact List.mem_cons_self _ _
        · exact Or.inr (List.mem_cons_of_mem _ h)
      · rw [if_neg hbr]
        rcases ih best with h | h
        · exact Or.inl h
        · exact Or.inr (List.mem_cons_of_mem _ h)

lemma maxByMag_eq_best (best : Record) (l : List Record)
    (h : (maxByMag best l).mag ≤ best.mag) : maxByMag best l = best := by
  induction l generalizing best with
  | nil => rfl
  | cons r rs ih =>
      simp only [maxByMag] at h ⊢
      by_cases hbr : best.mag < r.mag
      · rw [if_pos hbr] at h ⊢
        exact absurd (le_trans (maxByMag_mag_le r rs) h) (not_le.mpr hbr)
      · rw [if_neg hbr] at h ⊢
        exact ih best h

lemma find?_maxByMag (a : Record) (l : List Record) :
    List.find? (fun x => decide ((maxByMag a l).mag ≤ x.mag)) (a :: l)
      = some (maxByMag a l) := by
  induction l generalizing a with
  | nil =>
      simp only [maxByMag, List.find?]
      rw [decide_eq_true (le_refl a.mag)]
  | cons b rs ih =>
      by_cases hab : a.mag < b.mag
      · have hstep : maxByMag a (b :: rs) = maxByMag b rs := by
          simp only [maxByMag, if_pos hab]
        rw [hstep, List.find?_cons]
        have hfa : ¬ ((maxByMag b rs).mag ≤ a.mag) := fun hle =>
          absurd (le_trans (maxByMag_mag_le b rs) hle) (not_le.mpr hab)
        rw [decide_eq_false hfa]
        exact ih b
      · have hstep : maxByMag a (b :: rs) = maxByMag a rs := by
          simp only [maxByMag, if_neg hab]
        rw [hstep, List.find?_cons]
        by_cases hle : (maxByMag a rs).mag ≤ a.mag
        · have he := maxByMag_eq_best a rs hle
          rw [he, decide_eq_true (le_refl a.mag)]
        · rw [decide_eq_false hle]
          have hfb : ¬ ((maxByMag a rs).mag ≤ b.mag) := fun hc =>
            hle (le_trans hc (le_of_not_lt hab))
          rw [List.find?_cons, decide_eq_false hfb]
          have ihx := ih a
          rw [List.find?_cons, decide_eq_false hle] at ihx
          exact ihx

/-- C1: on a non-empty collection (of records whose coordinate lists are
long enough for `get_location` to succeed), `get_maximum` returns the
magnitude and location of the first record in iteration order attaining
the maximal magnitude; in particular that magnitude bounds every record's
magnitude from above.  Firstness is expressed with `List.find?`: the
returned record is the first whose magnitude reaches the returned value. -/
theorem get_maximum_first_max (l : List Record) (hne : l ≠ [])
    (hc : ∀ r ∈ l, 2 ≤ r.coordinates.length) :
    ∃ m loc r, get_maximum l = some (m, loc) ∧
      r ∈ l ∧ get_magnitude r = m ∧ get_location r = some loc ∧
      (∀ x ∈ l, get_magnitude x ≤ m) ∧
      List.find? (fun x => decide (m ≤ get_magnitude x)) l = some r := by
  match l with
  | [] => exact absurd rfl hne
  | a :: rest =>
      have hmem : maxByMag a rest ∈ a :: rest := by
        rcases maxByMag_mem a rest with h | h
        · rw [h]; exact List.mem_cons_self _ _
        · exact List.mem_cons_of_mem _ h
      have hlen : 2 ≤ (maxByMag a rest).coordinates.length := hc _ hmem
      obtain ⟨c0, c1, cs, hcs⟩ :
          ∃ c0 c1 cs, (maxByMag a rest).coordinates = c0 :: c1 :: cs := by
        match hx : (maxByMag a rest).coordinates with
        | [] => rw [hx] at hlen; simp at hlen
        | [c] => rw [hx] at hlen; simp at hlen
        | c0 :: c1 :: cs => exact ⟨c0, c1, cs, rfl⟩
      have hloc : get_location (maxByMag a rest) = some (c1, c0) := by
        unfold get_location; rw [hcs]
      refine ⟨(maxByMag a rest).mag, (c1, c0), maxByMag a rest,
        ?_, hmem, rfl, hloc, ?_, ?_⟩
      · show (get_location (maxByMag a rest)).map
          (fun loc => (get_magnitude (maxByMag a rest), loc)) = _
        rw [hloc]
        rfl
      · intro x hx
        rcases List.mem_cons.mp hx with h | h
        · subst h; exact maxByMag_mag_le x rest
        · exact maxByMag_le_all a rest x h
      · exact find?_maxByMag a rest

theorem get_maximum_first_max_witness :
    (([⟨1, 0, [1, 2]⟩, ⟨3, 0, [3, 4]⟩, ⟨3, 0, [5, 6]⟩] : List Record) ≠ [] ∧
      ∀ r ∈ ([⟨1, 0, [1, 2]⟩, ⟨3, 0, [3, 4]⟩, ⟨3, 0, [5, 6]⟩] : List Record),
        2 ≤ r.coordinates.length) ∧
    (∃ m loc r,
      get_maximum [⟨1, 0, [1, 2]⟩, ⟨3, 0, [3, 4]⟩, ⟨3, 0, [5, 6]⟩] = some (m, loc) ∧
      r ∈ ([⟨1, 0, [1, 2]⟩, ⟨3, 0, [3, 4]⟩, ⟨3, 0, [5, 6]⟩] : List Record) ∧
      get_magnitude r = m ∧ get_location r = some loc ∧
      (∀ x ∈ ([⟨1, 0, [1, 2]⟩, ⟨3, 0, [3, 4]⟩, ⟨3, 0, [5, 6]⟩] : List Record),
        get_magnitude x ≤ m) ∧
      List.find? (fun x => decide (m ≤ get_magnitude x))
        [⟨1, 0, [1, 2]⟩, ⟨3, 0, [3, 4]⟩, ⟨3, 0, [5, 6]⟩] = some r) :=
  ⟨⟨by decide, by decide⟩,
    get_maximum_first_max _ (by decide) (by decide)⟩

lemma sum_map_sort (s : Finset ℤ) (f : ℤ → ℕ) :
    ((s.sort (· ≤ ·)).map f).sum = ∑ y ∈ s, f y := by
  rw [← Finset.sum_to_list]
  exact List.Perm.sum_eq (List.Perm.map f (Finset.sort_perm_toList _ s))

lemma filter_year_length (tz : ℤ) (l : List Record) (y : ℤ) :
    (l.filter (fun r => decide (get_year tz r = y))).length = (yearsOf tz l).count y := by
  rw [← List.countP_eq_length_filter, yearsOf, List.count, List.countP_map]
  congr 1

lemma keys_counts (tz : ℤ) (l : List Record) :
    (earthquakes_per_year tz l).map Prod.fst = sortedYears tz l := by
  unfold earthquakes_per_year
  rw [List.map_map]
  exact List.map_id _

lemma keys_avg (tz : ℤ) (l : List Record) :
    (average_magnitude_per_year tz l).map Prod.fst = sortedYears tz l := by
  unfold average_magnitude_per_year
  rw [List.map_map]
  exact List.map_id _

/-- C5: the values of `earthquakes_per_year` sum to
`count_earthquakes` of the same collection. -/
theorem earthquakes_per_year_total (tz : ℤ) (l : List Record) :
    ((earthquakes_per_year tz l).map Prod.snd).sum = count_earthquakes l := by
  unfold earthquakes_per_year sortedYears count_earthquakes
  rw [List.map_map]
  have hcomp : (Prod.snd ∘ fun y : ℤ =>
        (y, (l.filter (fun r => decide (get_year tz r = y))).length))
      = fun y => (l.filter (fun r => decide (get_year tz r = y))).length := rfl
  rw [hcomp, sum_map_sort]
  calc ∑ y ∈ (yearsOf tz l).toFinset,
        (l.filter (fun r => decide (get_year tz r = y))).length
      = ∑ y ∈ (yearsOf tz l).toFinset, (yearsOf tz l).count y :=
        Finset.sum_congr rfl (fun y _ => filter_year_length tz l y)
    _ = (yearsOf tz l).length := List.sum_toFinset_count_eq_length _
    _ = l.length := by rw [yearsOf, List.length_map]

/-- C6: `earthquakes_per_year` and `average_magnitude_per_year` have the same
year keys, and these are exactly the distinct years present in the
collection (no zero-filling of absent years). -/
theorem per_year_keys_eq (tz : ℤ) (l : List Record) :
    (earthquakes_per_year tz l).map Prod.fst
      = (average_magnitude_per_year tz l).map Prod.fst ∧
    ∀ y : ℤ, y ∈ (earthquakes_per_year tz l).map Prod.fst
      ↔ ∃ r ∈ l, get_year tz r = y := by
  refine ⟨by rw [keys_counts, keys_avg], fun y => ?_⟩
  rw [keys_counts]
  unfold sortedYears yearsOf
  rw [Finset.mem_sort, List.mem_toFinset, List.mem_map]

/-- C7: both per-year mappings list their year keys in strictly ascending
order. -/
theorem per_year_keys_sorted (tz : ℤ) (l : List Record) :
    List.Sorted (· < ·) ((earthquakes_per_year tz l).map Prod.fst) ∧
    List.Sorted (· < ·) ((average_magnitude_per_year tz l).map Prod.fst) := by
  rw [keys_counts, keys_avg]
  exact ⟨Finset.sort_sorted_lt _, Finset.sort_sorted_lt _⟩

lemma min_rat_iff (l : List ℚ) (a : ℚ) :
    l.min? = some a ↔ a ∈ l ∧ ∀ b ∈ l, a ≤ b := by
  have : Std.Antisymm (fun x1 x2 : ℚ => x1 ≤ x2) := ⟨fun h h2 => le_antisymm h h2⟩
  apply List.min?_eq_some_iff
  · exact fun x => le_refl x
  · exact fun x y => min_choice x y
  · exact fun x y z => le_min_iff

lemma max_rat_iff (l : List ℚ) (a : ℚ) :
    l.max? = some a ↔ a ∈ l ∧ ∀ b ∈ l, b ≤ a := by
  have : Std.Antisymm (fun x1 x2 : ℚ => x1 ≤ x2) := ⟨fun h h2 => le_antisymm h h2⟩
  apply List.max?_eq_some_iff
  · exact fun x => le_refl x
  · exact fun x y => max_choice x y
  · exact fun x y z => max_le_iff

lemma mean_le_of_lower (mags : List ℚ) (hne : mags ≠ []) (b : ℚ)
    (hb : ∀ x ∈ mags, b ≤ x) : b ≤ mags.sum / (mags.length : ℚ) := by
  have hpos : (0 : ℚ) < (mags.length : ℚ) := by
    exact_mod_cast List.length_pos.mpr hne
  rw [le_div_iff₀ hpos]
  have hs := List.card_nsmul_le_sum mags b hb
  rwa [nsmul_eq_mul, mul_comm] at hs

lemma mean_le_of_upper (mags : List ℚ) (hne : mags ≠ []) (b : ℚ)
    (hb : ∀ x ∈ mags, x ≤ b) : mags.sum / (mags.length : ℚ) ≤ b := by
  have hpos : (0 : ℚ) < (mags.length : ℚ) := by
    exact_mod_cast List.length_pos.mpr hne
  rw [div_le_iff₀ hpos]
  have hs := List.sum_le_card_nsmul mags b hb
  rwa [nsmul_eq_mul, mul_comm] at hs

/-- C9: every value of `average_magnitude_per_year` lies between the
minimum and the maximum magnitude among the records of its year. -/
theorem average_magnitude_between (tz : ℤ) (l : List Record) (y : ℤ) (m : ℚ)
    (h : (y, m) ∈ average_magnitude_per_year tz l) :
    ∃ lo hi,
      ((l.filter (fun r => decide (get_year tz r = y))).map get_magnitude).min?
        = some lo ∧
      ((l.filter (fun r => decide (get_year tz r = y))).map get_magnitude).max?
        = some hi ∧
      lo ≤ m ∧ m ≤ hi := by
  unfold average_magnitude_per_year at h
  obtain ⟨y', hy', heq⟩ := List.mem_map.mp h
  simp only [Prod.mk.injEq] at heq
  obtain ⟨hy, hm⟩ := heq
  subst hy
  obtain ⟨r, hr, hry⟩ : ∃ r ∈ l, get_year tz r = y' := by
    have hys : y' ∈ yearsOf tz l :=
      List.mem_toFinset.mp ((Finset.mem_sort _).mp hy')
    exact List.mem_map.mp hys
  have hrf : r ∈ l.filter (fun r => decide (get_year tz r = y')) :=
    List.mem_filter.mpr ⟨hr, by rw [hry]; exact decide_eq_true rfl⟩
  have hne : (l.filter (fun r => decide (get_year tz r = y'))).map get_magnitude
      ≠ [] :=
    List.ne_nil_of_mem (List.mem_map_of_mem get_magnitude hrf)
  obtain ⟨a, as, hmags⟩ : ∃ a as,
      (l.filter (fun r => decide (get_year tz r = y'))).map get_magnitude
        = a :: as := by
    match hx : (l.filter (fun r => decide (get_year tz r = y'))).map get_magnitude with
    | [] => exact absurd hx hne
    | a :: as => exact ⟨a, as, rfl⟩
  refine ⟨(as.foldl min a), (as.foldl max a), ?_, ?_, ?_, ?_⟩
  · rw [hmags]; rfl
  · rw [hmags]; rfl
  · have hlo := (min_rat_iff (a :: as) (as.foldl min a)).mp rfl
    rw [← hm]
    have := mean_le_of_lower _ hne (as.foldl min a) (by rw [hmags]; exact hlo.2)
    rwa [hmags] at this ⊢
  · have hhi := (max_rat_iff (a :: as) (as.foldl max a)).mp rfl
    rw [← hm]
    have := mean_le_of_upper _ hne (as.foldl max a) (by rw [hmags]; exact hhi.2)
    rwa [hmags] at this ⊢

theorem average_magnitude_between_witness :
    ((1970 : ℤ), (2 : ℚ)) ∈ average_magnitude_per_year 0 twoRecords ∧
    (∃ lo hi,
      ((twoRecords.filter
          (fun r => decide (get_year 0 r = 1970))).map get_magnitude).min?
        = some lo ∧
      ((twoRecords.filter
          (fun r => decide (get_year 0 r = 1970))).map get_magnitude).max?
        = some hi ∧
      lo ≤ 2 ∧ (2 : ℚ) ≤ hi) := by
  have hfin : (yearsOf 0 twoRecords).toFinset = {1970} := by decide
  have hsy : sortedYears 0 twoRecords = [1970] := by
    rw [sortedYears, hfin]
    exact Finset.sort_singleton _ _
  have hfil : twoRecords.filter (fun r => decide (get_year 0 r = 1970))
      = twoRecords := by decide
  have h2 : ((twoRecords.map get_magnitude).sum
      / ((twoRecords.map get_magnitude).length : ℚ)) = 2 := by
    simp [twoRecords, get_magnitude]
    norm_num
  have hmem : ((1970 : ℤ), (2 : ℚ)) ∈ average_magnitude_per_year 0 twoRecords := by
    rw [average_magnitude_per_year, hsy]
    simp only [List.map_cons, List.map_nil, hfil, h2]
    exact List.mem_singleton.mpr rfl
  exact ⟨hmem, average_magnitude_between 0 twoRecords 1970 2 hmem⟩

end Earthquakes
